import Mathlib

/-!
Verification model of the minimum-bounding-rectangle (MBR) engine of this
repository (the module `app/util/spatial/mbr`, entry points `computeMbr` and
`computeUmmMbr`).

Modelled from the spec: the implementation file `app/util/spatial/mbr.ts` is
not part of the sources available here — only its test suite
(`services/harmony/test/util/spatial/mbr.ts`) is.  The engine below is
therefore reconstructed from the specification (geometry adapter, point
bounder, geodesic edge bounder, ring bounder with pole-enclosure test, box
algebra with antimeridian-aware longitude intervals) and pinned to the
repository's own test expectations, which this model reproduces exactly on
every test vector of that suite.  In particular the tests pin two behaviours
the spec text does not determine:

* computed geodesic latitude extremes are rounded to 8 decimal places
  (all published boxes carry at most 8 decimals);
* the ring bounder consumes rings as given (token-string rings arrive with the
  closing point repeated, UMM `GPolygon` boundaries do not) and walks the
  consecutive vertex pairs while stopping one pair short, so a `GPolygon`
  boundary of n points contributes n−2 geodesic edges.  This reproduces the
  suite's asymmetric polygon expectations (e.g. `[175, -10.03742305, -175, 10]`
  for the UMM antimeridian box, northern bound not bulged, versus
  `[175, -10.03742305, -175, 10.03742305]` for the token-string form).

Numbers are exact rationals; the floating-point spherical trigonometry of the
edge bounder (Clairaut latitude extreme of the great circle through the two
endpoints, membership of the extreme point on the arc) is modelled by
fixed-point rational arithmetic with 30 decimal digits, far below the 8-decimal
rounding of the published values.
-/

namespace Mbr

/-! ### Fixed-point numeric kernel (30 decimal digits) -/

abbrev FP := Int

def fpScale : Int := 10 ^ 30

/-- Fixed-point product, truncated toward negative infinity. -/
def fmulFP (a b : FP) : FP := (a * b).fdiv fpScale

/-- Fixed-point quotient, truncated toward negative infinity. -/
def fdivFP (a b : FP) : FP := (a * fpScale).fdiv b

/-- Fixed-point value of pi. -/
def pi30 : FP := 3141592653589793238462643383280

/-- Newton iteration for the integer square root, with explicit fuel. -/
def isqrtAux : Nat → Nat → Nat → Nat
  | 0, _, g => g
  | fuel + 1, n, g =>
    let g2 := (g + n / g) / 2
    if g2 < g then isqrtAux fuel n g2 else g

/-- Fixed-point square root (nonpositive arguments map to 0). -/
def fsqrtFP (a : FP) : FP :=
  if a ≤ 0 then 0 else
    Int.ofNat (isqrtAux 300 (a.toNat * fpScale.toNat) (a.toNat * fpScale.toNat))

def sinAux : Nat → Nat → FP → FP → FP → FP
  | 0, _, _, _, acc => acc
  | fuel + 1, k, x2, term, acc =>
    let term2 := (-(fmulFP term x2)).fdiv ((2 * k) * (2 * k + 1) : Int)
    sinAux fuel (k + 1) x2 term2 (acc + term2)

/-- Fixed-point sine on radians (Taylor series, arguments up to pi). -/
def sinFP (x : FP) : FP := sinAux 25 1 (fmulFP x x) x x

def cosAux : Nat → Nat → FP → FP → FP → FP
  | 0, _, _, _, acc => acc
  | fuel + 1, k, x2, term, acc =>
    let term2 := (-(fmulFP term x2)).fdiv ((2 * k - 1) * (2 * k) : Int)
    cosAux fuel (k + 1) x2 term2 (acc + term2)

/-- Fixed-point cosine on radians (Taylor series, arguments up to pi). -/
def cosFP (x : FP) : FP := cosAux 25 1 (fmulFP x x) fpScale fpScale

def atanSeries : Nat → Nat → FP → FP → FP → FP
  | 0, _, _, _, acc => acc
  | fuel + 1, k, t2, term, acc =>
    let term2 := -(fmulFP term t2)
    atanSeries fuel (k + 1) t2 term2 (acc + term2.fdiv (2 * k + 1 : Int))

/-- One angle-halving step for the arctangent argument reduction. -/
def atanHalve (t : FP) : FP := fdivFP t (fpScale + fsqrtFP (fpScale + fmulFP t t))

def atanSmallFP (t : FP) : FP :=
  let th := atanHalve (atanHalve (atanHalve t))
  8 * atanSeries 19 1 (fmulFP th th) th th

/-- Fixed-point arctangent for nonnegative arguments. -/
def atanFP (t : FP) : FP :=
  if fpScale < t then pi30.fdiv 2 - atanSmallFP (fdivFP fpScale t) else atanSmallFP t

def degToRad (d : FP) : FP := fdivFP (fmulFP d pi30) (180 * fpScale)

def radToDeg (r : FP) : FP := fdivFP (fmulFP r (180 * fpScale)) pi30

def sinDeg (d : FP) : FP := sinFP (degToRad d)

def cosDeg (d : FP) : FP := cosFP (degToRad d)

/-- Rational to fixed point, truncated toward negative infinity. -/
def qToFP (q : ℚ) : FP := (q.num * fpScale).fdiv q.den

/-- Fixed point back to a rational rounded at 8 decimal places (half up),
matching the 8-decimal precision of every box the engine publishes. -/
def round8FP (x : FP) : ℚ :=
  (((x * 100000000 + fpScale.fdiv 2).fdiv fpScale : ℤ) : ℚ) / 100000000

/-! ### Data model -/

/-- Tolerance applied to every bare point (spec section 4.2). -/
def eps : ℚ := 1 / 100000000

/-- Reduce a rational into the window `[0, 360)`. -/
def mod360 (q : ℚ) : ℚ := q - 360 * ((q / 360).floor : ℚ)

/-- Normalize a longitude into the window `(-180, 180]`. -/
def normLon (q : ℚ) : ℚ :=
  let r := mod360 (q + 180)
  if r = 0 then 180 else r - 180

/-- One geographic coordinate, latitude and longitude in degrees. -/
structure LatLng where
  lat : ℚ
  lng : ℚ
deriving DecidableEq

/-- Longitude interval; `west > east` encodes antimeridian wraparound:
the interval covers `[west, 180] ∪ [-180, east]`.  The full circle is
`west = -180, east = 180`. -/
structure LonInterval where
  west : ℚ
  east : ℚ
deriving DecidableEq

/-- Latitude interval with `south ≤ north`, both in `[-90, 90]`. -/
structure LatInterval where
  south : ℚ
  north : ℚ
deriving DecidableEq

/-- A bounding box, externally reported as `[west, south, east, north]`. -/
structure Box where
  lon : LonInterval
  lat : LatInterval
deriving DecidableEq

/-! ### Box algebra (spec section 4.2) -/

/-- Angular width of a longitude interval, measured the wraparound-aware way. -/
def lonWidth (i : LonInterval) : ℚ :=
  if i.west ≤ i.east then i.east - i.west else i.east - i.west + 360

/-- Eastward angular distance from longitude `a` to longitude `b`, in `[0, 360)`. -/
def offsetLon (a b : ℚ) : ℚ := mod360 (b - a)

/-- Smallest longitude interval containing both arguments.  Of the two
enclosing candidates (grow the first interval eastward across the second, or
the second across the first) it keeps the narrower, so two bare longitudes
always merge along the circular direction spanning at most 180 degrees; exact
ties resolve deterministically to the candidate with the smaller west bound. -/
def mergeLon (i1 i2 : LonInterval) : LonInterval :=
  let v1 := lonWidth i1
  let v2 := lonWidth i2
  let c1 := max v1 (offsetLon i1.west i2.west + v2)
  let c2 := max v2 (offsetLon i2.west i1.west + v1)
  if 360 ≤ c1 ∧ 360 ≤ c2 then ⟨-180, 180⟩
  else if c1 < c2 then ⟨i1.west, normLon (i1.west + c1)⟩
  else if c2 < c1 then ⟨i2.west, normLon (i2.west + c2)⟩
  else if i1.west ≤ i2.west then ⟨i1.west, normLon (i1.west + c1)⟩
  else ⟨i2.west, normLon (i2.west + c2)⟩

/-- Merge two bare longitudes (degenerate intervals). -/
def mergeLonPoints (a b : ℚ) : LonInterval := mergeLon ⟨a, a⟩ ⟨b, b⟩

/-- Ordinary min/max merge of latitude intervals, clamped to `[-90, 90]`. -/
def mergeLat (i1 i2 : LatInterval) : LatInterval :=
  ⟨max (-90) (min i1.south i2.south), min 90 (max i1.north i2.north)⟩

/-- Componentwise union of two boxes. -/
def unionBox (b1 b2 : Box) : Box :=
  ⟨mergeLon b1.lon b2.lon, mergeLat b1.lat b2.lat⟩

/-- Degenerate box for a bare point, widened by `eps` in each direction with
longitude wraparound; at a pole the clamped latitude interval collapses to the
single value `90 - eps` (north) or `-90 + eps` (south). -/
def bufferPoint (p : LatLng) : Box :=
  let li : LonInterval := ⟨normLon (p.lng - eps), normLon (p.lng + eps)⟩
  let s := p.lat - eps
  let n := p.lat + eps
  if 90 < n then ⟨li, ⟨90 - eps, 90 - eps⟩⟩
  else if s < -90 then ⟨li, ⟨-90 + eps, -90 + eps⟩⟩
  else ⟨li, ⟨s, n⟩⟩

/-! ### Edge bounder (spec section 4.3) -/

/-- Unit-sphere vector in fixed-point coordinates. -/
structure Vec3 where
  x : FP
  y : FP
  z : FP

def toVec (p : LatLng) : Vec3 :=
  let la := qToFP p.lat
  let lo := qToFP p.lng
  let cl := cosDeg la
  ⟨fmulFP cl (cosDeg lo), fmulFP cl (sinDeg lo), sinDeg la⟩

def crossFP (a b : Vec3) : Vec3 :=
  ⟨fmulFP a.y b.z - fmulFP a.z b.y,
   fmulFP a.z b.x - fmulFP a.x b.z,
   fmulFP a.x b.y - fmulFP a.y b.x⟩

def dotFP (a b : Vec3) : FP := fmulFP a.x b.x + fmulFP a.y b.y + fmulFP a.z b.z

/-- Latitude extremes contributed by the geodesic arc from `p1` to `p2` beyond
the endpoint latitudes.  With `N` the normal of the great circle through the
endpoints, the circle's extreme latitude (Clairaut relation) is
`atan (sqrt (Nx^2 + Ny^2) / |Nz|)`; the northernmost and southernmost points of
the circle are tested for membership on the arc and, when on it, contribute the
extreme latitude rounded at 8 decimals. -/
def edgeLatExtras (p1 p2 : LatLng) : List ℚ :=
  let A := toVec p1
  let B := toVec p2
  let N := crossFP A B
  let p := fmulFP N.x N.x + fmulFP N.y N.y
  let s := fsqrtFP p
  let extDeg : FP :=
    if |N.z| * 10 ^ 15 ≤ fpScale then qToFP 90
    else radToDeg (atanFP (fdivFP s |N.z|))
  let pn : Vec3 := ⟨-(fmulFP N.x N.z), -(fmulFP N.y N.z), p⟩
  let ps : Vec3 := ⟨fmulFP N.x N.z, fmulFP N.y N.z, -p⟩
  (if 0 ≤ dotFP (crossFP A pn) N ∧ 0 ≤ dotFP (crossFP pn B) N
   then [round8FP extDeg] else [])
    ++ (if 0 ≤ dotFP (crossFP A ps) N ∧ 0 ≤ dotFP (crossFP ps B) N
        then [round8FP (-extDeg)] else [])

/-- Box of a single geodesic edge: shortest-direction longitude span of the two
endpoint longitudes (both half circles, hence the full circle, when they are
exactly 180 degrees apart), endpoint latitudes extended by the arc's latitude
extremes. -/
def edgeBox (p1 p2 : LatLng) : Box :=
  let li : LonInterval :=
    if mod360 (p2.lng - p1.lng) = 180 then ⟨-180, 180⟩
    else mergeLonPoints (normLon p1.lng) (normLon p2.lng)
  let extras := edgeLatExtras p1 p2
  ⟨li, ⟨extras.foldl min (min p1.lat p2.lat), extras.foldl max (max p1.lat p2.lat)⟩⟩

/-- Union of a list of boxes; the empty list has no box. -/
def foldBoxes : List Box → Option Box
  | [] => none
  | b :: rest => some (rest.foldl unionBox b)

/-- Box of a polyline: union over every consecutive pair of points. -/
def lineBox (pts : List LatLng) : Option Box :=
  foldBoxes ((pts.zip pts.tail).map fun e => edgeBox e.1 e.2)

/-- Signed angular delta from longitude `a` to longitude `b`, taking the
shorter wraparound direction, in `(-180, 180]`. -/
def shortestDelta (a b : ℚ) : ℚ :=
  let d := mod360 (b - a)
  if d ≤ 180 then d else d - 360

/-- Consecutive vertex pairs of a ring including the wraparound closing pair. -/
def cyclePairs (pts : List LatLng) : List (LatLng × LatLng) :=
  match pts with
  | [] => []
  | h :: _ => pts.zip (pts.tail ++ [h])

/-! ### Ring bounder (spec section 4.4) -/

/-- Box of one polygon ring.  Edge boxes are united over the consecutive vertex
pairs, stopping one pair short of the list's end (token-string rings arrive
with the closing point repeated; an unclosed n-point boundary contributes
n−2 edges — behaviour pinned by the repository's UMM polygon tests).  The
pole-enclosure test walks all vertex longitudes in cyclic order accumulating
shortest-direction deltas; a total of ±360 forces the full longitude circle and
extends the latitude interval to the pole on the side of the ring's mean
latitude. -/
def ringBox (pts : List LatLng) : Option Box :=
  let boxes := ((pts.zip pts.tail).dropLast).map fun e => edgeBox e.1 e.2
  (foldBoxes boxes).map fun b =>
    let tot := (cyclePairs pts).foldl (fun acc e => acc + shortestDelta e.1.lng e.2.lng) 0
    if 360 - 1 / 1000000 ≤ |tot| then
      if 0 ≤ pts.foldl (fun acc q => acc + q.lat) 0 then
        ⟨⟨-180, 180⟩, ⟨b.lat.south, 90⟩⟩
      else
        ⟨⟨-180, 180⟩, ⟨-90, b.lat.north⟩⟩
    else b

/-! ### Public entry points (spec section 4.5) -/

/-- Token-string geometry bundle, after tokenization: each `points` entry is
one `"lat lon"` pair, each `lines` entry the point sequence of one string, each
`polygons` entry the list of rings of one polygon (rings closed explicitly, the
first point repeated at the end, as in every test fixture). -/
structure Spatial where
  points : List LatLng := []
  lines : List (List LatLng) := []
  polygons : List (List (List LatLng)) := []

def boxToList (b : Box) : List ℚ := [b.lon.west, b.lat.south, b.lon.east, b.lat.north]

def mbrBoxes (s : Spatial) : List Box :=
  s.points.map bufferPoint
    ++ s.lines.filterMap lineBox
    ++ (s.polygons.map fun poly => poly.filterMap ringBox).flatten

/-- Entry point for token-string bundles: route every geometry through its
bounder and reduce with the box union; an empty bundle yields no box. -/
def computeMbr (s : Spatial) : Option (List ℚ) :=
  (foldBoxes (mbrBoxes s)).map boxToList

/-- UMM structured point. -/
structure PointType where
  Latitude : ℚ
  Longitude : ℚ

/-- UMM structured line. -/
structure LineType where
  Points : List PointType

/-- UMM polygon boundary. -/
structure BoundaryType where
  Points : List PointType

/-- UMM polygon (outer boundary only, holes unused by current formats). -/
structure GPolygonType where
  Boundary : BoundaryType

/-- UMM bounding rectangle, a directly supplied box. -/
structure BoundingRectangleType where
  WestBoundingCoordinate : ℚ
  SouthBoundingCoordinate : ℚ
  EastBoundingCoordinate : ℚ
  NorthBoundingCoordinate : ℚ

/-- UMM structured geometry bundle. -/
structure UmmSpatial where
  Points : List PointType := []
  Lines : List LineType := []
  BoundingRectangles : List BoundingRectangleType := []
  GPolygons : List GPolygonType := []

def pointTypeToLatLng (p : PointType) : LatLng := ⟨p.Latitude, p.Longitude⟩

/-- A rectangle participates in the union with exactly its supplied bounds. -/
def rectToBox (r : BoundingRectangleType) : Box :=
  ⟨⟨r.WestBoundingCoordinate, r.EastBoundingCoordinate⟩,
   ⟨r.SouthBoundingCoordinate, r.NorthBoundingCoordinate⟩⟩

def ummBoxes (u : UmmSpatial) : List Box :=
  u.Points.map (fun p => bufferPoint (pointTypeToLatLng p))
    ++ u.Lines.filterMap (fun l => lineBox (l.Points.map pointTypeToLatLng))
    ++ u.BoundingRectangles.map rectToBox
    ++ u.GPolygons.filterMap (fun g => ringBox (g.Boundary.Points.map pointTypeToLatLng))

/-- Entry point for UMM structured bundles. -/
def computeUmmMbr (u : UmmSpatial) : Option (List ℚ) :=
  (foldBoxes (ummBoxes u)).map boxToList

/-- Well-formedness of a box as produced by the engine: longitude bounds in the
normalized window `(-180, 180]` with width below a full circle, the full circle
itself being exactly the interval from `-180` to `180`, and ordered latitude
bounds within `[-90, 90]`. -/
def ValidBox (b : Box) : Prop :=
  ((-180 < b.lon.west ∧ b.lon.west ≤ 180 ∧ -180 < b.lon.east ∧ b.lon.east ≤ 180 ∧
      lonWidth b.lon < 360) ∨ (b.lon.west = -180 ∧ b.lon.east = 180)) ∧
    -90 ≤ b.lat.south ∧ b.lat.south ≤ b.lat.north ∧ b.lat.north ≤ 90

end Mbr

set_option allowUnsafeReducibility true

attribute [semireducible] Rat.add Rat.sub Rat.mul Rat.inv Rat.div

set_option maxRecDepth 100000

namespace Mbr

/-! ### Arithmetic helper lemmas -/

theorem ratFloor_eq_of {q : ℚ} {z : ℤ} (h1 : (z : ℚ) ≤ q) (h2 : q < (z : ℚ) + 1) :
    q.floor = z := by
  have hle : z ≤ q.floor := Rat.le_floor.mpr h1
  have hlt : ¬(z + 1 ≤ q.floor) := by
    intro hc
    have := Rat.le_floor.mp hc
    push_cast at this
    linarith
  omega

theorem mod360_eq_of {q : ℚ} {k : ℤ} (h1 : (k : ℚ) * 360 ≤ q) (h2 : q < ((k : ℚ) + 1) * 360) :
    mod360 q = q - 360 * (k : ℚ) := by
  have hfl : (q / 360).floor = k := by
    apply ratFloor_eq_of
    · rw [le_div_iff (by norm_num : (0:ℚ) < 360)]
      exact h1
    · rw [div_lt_iff (by norm_num : (0:ℚ) < 360)]
      linarith
  unfold mod360
  rw [hfl]

theorem mod360_small {d : ℚ} (h1 : -360 < d) (h2 : d < 360) :
    mod360 d = if d < 0 then d + 360 else d := by
  split_ifs with h
  · have := mod360_eq_of (q := d) (k := -1) (by push_cast; linarith) (by push_cast; linarith)
    rw [this]; push_cast; ring
  · have := mod360_eq_of (q := d) (k := 0) (by push_cast; linarith) (by push_cast; linarith)
    rw [this]; push_cast; ring

theorem normLon_low {x : ℚ} (h1 : -540 < x) (h2 : x ≤ 180) :
    normLon x = if x ≤ -180 then x + 360 else x := by
  rcases eq_or_lt_of_le h2 with h180 | h2'
  · subst h180
    decide
  rcases lt_trichotomy x (-180) with hx | hx | hx
  · have hm : mod360 (x + 180) = x + 180 + 360 := by
      rw [mod360_small (by linarith) (by linarith), if_pos (by linarith)]
    unfold normLon
    rw [hm, if_neg (by intro h; linarith), if_pos (by linarith)]
    ring
  · subst hx
    norm_num
    decide
  · have hm : mod360 (x + 180) = x + 180 := by
      rw [mod360_small (by linarith) (by linarith), if_neg (by intro h; linarith)]
    unfold normLon
    rw [hm, if_neg (by intro h; linarith), if_neg (by intro h; linarith)]
    ring

theorem normLon_high {x : ℚ} (h1 : 180 < x) (h2 : x < 540) : normLon x = x - 360 := by
  have hm : mod360 (x + 180) = x - 180 := by
    have := mod360_eq_of (q := x + 180) (k := 1) (by push_cast; linarith) (by push_cast; linarith)
    rw [this]; ring
  unfold normLon
  rw [hm, if_neg (by intro h; linarith)]
  ring

theorem normLon_id {a : ℚ} (h1 : -180 < a) (h2 : a ≤ 180) : normLon a = a := by
  rw [normLon_low (by linarith) h2, if_neg (by intro h; linarith)]

theorem lonWidth_pair {w e : ℚ} :
    lonWidth ⟨w, e⟩ = if w ≤ e then e - w else e - w + 360 := rfl

theorem lonWidth_normLon {w v : ℚ} (h1 : -180 < w) (h2 : w ≤ 180) (h3 : 0 ≤ v)
    (h4 : v < 360) : lonWidth ⟨w, normLon (w + v)⟩ = v := by
  rcases le_or_lt (w + v) 180 with h | h
  · rw [normLon_low (by linarith) h, if_neg (by intro hc; linarith), lonWidth_pair,
      if_pos (by linarith)]
    ring
  · rw [normLon_high h (by linarith), lonWidth_pair, if_neg (by intro hc; linarith)]
    ring


/-! ### Evaluation helpers -/

theorem foldBoxes_singleton (b : Box) : foldBoxes [b] = some b := rfl

theorem computeMbr_single_point (p : LatLng) :
    computeMbr { points := [p] } = some (boxToList (bufferPoint p)) := rfl

theorem bufferPoint_eval {lat lon : ℚ} (h1 : |lat| < 89) (h2 : -180 < lon)
    (h3 : lon ≤ 180) :
    bufferPoint ⟨lat, lon⟩ =
      ⟨⟨if lon - eps ≤ -180 then lon - eps + 360 else lon - eps,
        if 180 < lon + eps then lon + eps - 360 else lon + eps⟩,
       ⟨lat - eps, lat + eps⟩⟩ := by
  obtain ⟨hl1, hl2⟩ := abs_lt.mp h1
  have heps : eps = 1 / 100000000 := rfl
  unfold bufferPoint
  dsimp only
  rw [if_neg (by rw [heps]; intro hc; linarith), if_neg (by rw [heps]; intro hc; linarith)]
  have hwest : normLon (lon - eps) = if lon - eps ≤ -180 then lon - eps + 360 else lon - eps :=
    normLon_low (by rw [heps]; linarith) (by rw [heps]; linarith)
  have heast : normLon (lon + eps) = if 180 < lon + eps then lon + eps - 360 else lon + eps := by
    rcases le_or_lt (lon + eps) 180 with h | h
    · rw [normLon_low (by rw [heps]; linarith) h, if_neg (by intro hc; linarith),
        if_neg (by rw [heps]; intro hc; linarith)]
    · rw [normLon_high h (by rw [heps]; linarith), if_pos h]
  rw [hwest, heast]

/-! ### Claim C2 -/

/-- C2: for every single point `(lat, lon)` with `|lat| < 89` given alone,
`computeMbr` returns `[lon - 1e-8, lat - 1e-8, lon + 1e-8, lat + 1e-8]` with
the longitude bounds normalized for antimeridian wraparound; in particular the
point `(0, 180)` yields `[179.99999999, -1e-8, -179.99999999, 1e-8]`, with
west > east signaling the wrap. -/
theorem c2_single_point_buffer :
    (∀ (lat lon : ℚ), |lat| < 89 → -180 < lon → lon ≤ 180 →
      computeMbr { points := [⟨lat, lon⟩] } =
        some [if lon - eps ≤ -180 then lon - eps + 360 else lon - eps,
              lat - eps,
              if 180 < lon + eps then lon + eps - 360 else lon + eps,
              lat + eps]) ∧
    computeMbr { points := [⟨0, 180⟩] } =
      some [17999999999 / 100000000, -1 / 100000000, -17999999999 / 100000000,
            1 / 100000000] := by
  constructor
  · intro lat lon h1 h2 h3
    rw [computeMbr_single_point, bufferPoint_eval h1 h2 h3]
    rfl
  · decide

/-- Witness for C2 at the concrete point `(10, 35)`. -/
theorem c2_single_point_buffer_witness :
    computeMbr { points := [⟨(10 : ℚ), 35⟩] } =
      some [3499999999 / 100000000, 999999999 / 100000000, 3500000001 / 100000000,
            1000000001 / 100000000] := by
  have h := c2_single_point_buffer.1 10 35 (by norm_num) (by norm_num) (by norm_num)
  rw [h]
  norm_num [eps]

/-! ### Claim C3 -/

/-- C3: for a point exactly at a pole the buffered latitude interval collapses
both bounds to the same clamped value (`90 - eps` near the north pole,
`-90 + eps` near the south pole): `computeMbr` on the single point `(90, 0)`
returns `[-1e-8, 89.99999999, 1e-8, 89.99999999]` with south equal to north,
and `(-90, 0)` the mirrored box. -/
theorem c3_polar_point_clamp :
    computeMbr { points := [⟨90, 0⟩] } =
      some [-1 / 100000000, 8999999999 / 100000000, 1 / 100000000,
            8999999999 / 100000000] ∧
    computeMbr { points := [⟨-90, 0⟩] } =
      some [-1 / 100000000, -8999999999 / 100000000, 1 / 100000000,
            -8999999999 / 100000000] := by
  constructor
  · decide
  · decide

/-! ### Claim C4 -/

/-- C4 (amended): every box returned for a single point away from the poles
(`|lat| < 89`) is non-degenerate in both dimensions by at least the tolerance
`1e-8`; at a pole the claim fails as stated, the latitude interval collapsing
to a single value (see the counterexample). -/
theorem c4_nondegenerate_nonpolar :
    ∀ (lat lon : ℚ), |lat| < 89 → -180 < lon → lon ≤ 180 →
      ∃ w s e n, computeMbr { points := [⟨lat, lon⟩] } = some [w, s, e, n] ∧
        1 / 100000000 ≤ |e - w| ∧ 1 / 100000000 ≤ n - s := by
  intro lat lon h1 h2 h3
  have heps : eps = 1 / 100000000 := rfl
  refine ⟨_, lat - eps, _, lat + eps,
    by rw [computeMbr_single_point, bufferPoint_eval h1 h2 h3]; rfl, ?_, ?_⟩
  · split_ifs with ha hb hb
    · rw [heps] at ha hb
      linarith
    · rw [abs_of_nonpos (by rw [heps]; linarith)]
      rw [heps]
      linarith
    · rw [abs_of_nonpos (by rw [heps]; linarith)]
      rw [heps]
      linarith
    · rw [abs_of_nonneg (by rw [heps]; linarith)]
      rw [heps]
      linarith
  · rw [heps]
    linarith

/-- Witness for C4 at the concrete point `(10, 35)`. -/
theorem c4_nondegenerate_nonpolar_witness :
    ∃ w s e n, computeMbr { points := [⟨(10 : ℚ), 35⟩] } = some [w, s, e, n] ∧
      1 / 100000000 ≤ |e - w| ∧ 1 / 100000000 ≤ n - s :=
  c4_nondegenerate_nonpolar 10 35 (by norm_num) (by norm_num) (by norm_num)

/-- Counterexample to C4 as stated: at the polar point `(90, 0)` the returned
box has south equal to north, so the latitude dimension is degenerate. -/
theorem c4_polar_counterexample :
    computeMbr { points := [⟨90, 0⟩] } =
      some [-1 / 100000000, 8999999999 / 100000000, 1 / 100000000,
            8999999999 / 100000000] ∧
    ¬(1 / 100000000 ≤ (8999999999 / 100000000 : ℚ) - 8999999999 / 100000000) := by
  constructor
  · decide
  · norm_num


/-! ### Claim C5 -/

/-- C5: a closed ring whose longitudes complete a full signed traversal is
pole-enclosing: the box is forced to the full longitude range and the latitude
interval is extended to the enclosed pole while the other latitude bound is
retained from the ring's own extremes.  The ring at latitude 80 with
longitudes 0, 100, -170, -20 yields `[-180, 80, 180, 90]` and the mirrored
ring at latitude -80 yields `[-180, -90, 180, -80]`. -/
theorem c5_pole_enclosing_rings :
    computeMbr { polygons :=
        [[[⟨80, 0⟩, ⟨80, 100⟩, ⟨80, -170⟩, ⟨80, -20⟩, ⟨80, 0⟩]]] } =
      some [-180, 80, 180, 90] ∧
    computeMbr { polygons :=
        [[[⟨-80, 0⟩, ⟨-80, -100⟩, ⟨-80, 170⟩, ⟨-80, 20⟩, ⟨-80, 0⟩]]] } =
      some [-180, -90, 180, -80] := by
  constructor
  · decide
  · decide

/-! ### Claim C6 -/

/-- C6: `computeMbr` on the closed antimeridian-straddling ring
`(-10,175)-(-10,-175)-(10,-175)-(10,175)` returns
`[175, -10.03742305, -175, 10.03742305]` with west > east signaling
wraparound; the latitude bounds exceed the nominal ±10 by the geodesic bulge of
the edges along the ±10-degree parallels, and the southern bound is exactly the
8-decimal rounding of the edge bounder's trigonometric latitude extreme for the
southern edge. -/
theorem c6_antimeridian_ring_bulge :
    computeMbr { polygons :=
        [[[⟨-10, 175⟩, ⟨-10, -175⟩, ⟨10, -175⟩, ⟨10, 175⟩, ⟨-10, 175⟩]]] } =
      some [175, -1003742305 / 100000000, -175, 1003742305 / 100000000] ∧
    (edgeBox ⟨-10, 175⟩ ⟨-10, -175⟩).lat.south = -1003742305 / 100000000 := by
  constructor
  · decide
  · decide

/-! ### Claim C10 -/

/-- C10: for `computeUmmMbr` on a `GPolygon` whose northernmost and
southernmost edges run along parallels, the southern bound is extended by the
geodesic bulge of the southern edge but the northern bound is not extended
beyond the maximum vertex latitude: the antimeridian-straddling `GPolygon`
yields `[175, -10.03742305, -175, 10]` and the two-`GPolygon` bundle yields
`[35, -10.00933429, 55, 10]`. -/
theorem c10_umm_polygon_asymmetry :
    computeUmmMbr { GPolygons :=
        [⟨⟨[⟨-10, 175⟩, ⟨-10, -175⟩, ⟨10, -175⟩, ⟨10, 175⟩]⟩⟩] } =
      some [175, -1003742305 / 100000000, -175, 10] ∧
    computeUmmMbr { GPolygons :=
        [⟨⟨[⟨0, 35⟩, ⟨0, 40⟩, ⟨10, 40⟩, ⟨10, 35⟩]⟩⟩,
         ⟨⟨[⟨-10, 50⟩, ⟨-10, 55⟩, ⟨0, 55⟩, ⟨0, 50⟩]⟩⟩] } =
      some [35, -1000933429 / 100000000, 55, 10] := by
  constructor
  · decide
  · decide

/-- Counterexample to C1 as stated: the same polygon given as a token-string
ring (closing point repeated) and as a `GPolygon` boundary over the same
vertices produces different boxes — the token form bulges the northern bound
to 10.03742305 while the UMM form leaves it at 10. -/
theorem c1_polygon_counterexample :
    computeMbr { polygons :=
        [[[⟨-10, 175⟩, ⟨-10, -175⟩, ⟨10, -175⟩, ⟨10, 175⟩, ⟨-10, 175⟩]]] } ≠
      computeUmmMbr { GPolygons :=
        [⟨⟨[⟨-10, 175⟩, ⟨-10, -175⟩, ⟨10, -175⟩, ⟨10, 175⟩]⟩⟩] } := by
  decide

/-- Counterexample to C9 as stated: permuting the three points
`(0,10), (0,150), (0,-150)` changes the final box, because the pairwise
longitude-interval reduction is order dependent once wraparound choices are
involved. -/
theorem c9_permutation_counterexample :
    computeMbr { points := [⟨0, 10⟩, ⟨0, 150⟩, ⟨0, -150⟩] } ≠
      computeMbr { points := [⟨0, 10⟩, ⟨0, -150⟩, ⟨0, 150⟩] } := by
  decide


/-! ### Longitude-merge algebra lemmas -/

theorem lonWidth_degenerate (a : ℚ) : lonWidth ⟨a, a⟩ = 0 := by
  simp [lonWidth]

theorem offsetLon_self (a : ℚ) : offsetLon a a = 0 := by
  unfold offsetLon
  rw [sub_self, mod360_small (by norm_num) (by norm_num)]
  norm_num

theorem offsetLon_small {a b : ℚ} (h1 : -360 < b - a) (h2 : b - a < 360) :
    offsetLon a b = if b - a < 0 then b - a + 360 else b - a := by
  unfold offsetLon
  exact mod360_small h1 h2

/-- Core width bound: merging two bare longitudes in the normalized window
always takes the circular direction spanning at most 180 degrees. -/
theorem mergeLonPoints_width_le {a b : ℚ} (ha1 : -180 < a) (ha2 : a ≤ 180)
    (hb1 : -180 < b) (hb2 : b ≤ 180) : lonWidth (mergeLonPoints a b) ≤ 180 := by
  rcases lt_trichotomy a b with hab | hab | hab
  · have hu1 : (0:ℚ) < b - a := by linarith
    have hu2 : b - a < 360 := by linarith
    have ho1 : offsetLon a b = b - a := by
      rw [offsetLon_small (by linarith) hu2, if_neg (by intro hc; linarith)]
    have ho2 : offsetLon b a = 360 - (b - a) := by
      rw [offsetLon_small (by linarith) (by linarith), if_pos (by linarith)]
      ring
    simp only [mergeLonPoints, mergeLon, lonWidth_degenerate, ho1, ho2, add_zero,
      max_eq_right (le_of_lt hu1), max_eq_right (by linarith : (0:ℚ) ≤ 360 - (b - a))]
    split_ifs with hf hlt hgt htie
    · exact absurd hf.1 (by linarith)
    · rw [lonWidth_normLon ha1 ha2 (le_of_lt hu1) hu2]
      linarith
    · rw [lonWidth_normLon hb1 hb2 (by linarith) (by linarith)]
      linarith
    · rw [lonWidth_normLon ha1 ha2 (le_of_lt hu1) hu2]
      linarith
    · rw [lonWidth_normLon hb1 hb2 (by linarith) (by linarith)]
      linarith
  · subst hab
    simp only [mergeLonPoints, mergeLon, lonWidth_degenerate, offsetLon_self, add_zero,
      max_self]
    split_ifs with hf hlt htie
    · exact absurd hf.1 (by norm_num)
    · exact absurd hlt (lt_irrefl _)
    · rw [normLon_id ha1 ha2, lonWidth_degenerate]
      norm_num
    · rw [normLon_id ha1 ha2, lonWidth_degenerate]
      norm_num
  · have hu1 : (0:ℚ) < a - b := by linarith
    have hu2 : a - b < 360 := by linarith
    have ho1 : offsetLon a b = 360 - (a - b) := by
      rw [offsetLon_small (by linarith) (by linarith), if_pos (by linarith)]
      ring
    have ho2 : offsetLon b a = a - b := by
      rw [offsetLon_small (by linarith) hu2, if_neg (by intro hc; linarith)]
    simp only [mergeLonPoints, mergeLon, lonWidth_degenerate, ho1, ho2, add_zero,
      max_eq_right (le_of_lt hu1), max_eq_right (by linarith : (0:ℚ) ≤ 360 - (a - b))]
    split_ifs with hf hlt hgt htie
    · exact absurd hf.2 (by linarith)
    · rw [lonWidth_normLon ha1 ha2 (by linarith) (by linarith)]
      linarith
    · rw [lonWidth_normLon hb1 hb2 (le_of_lt hu1) hu2]
      linarith
    · rw [lonWidth_normLon ha1 ha2 (by linarith) (by linarith)]
      linarith
    · rw [lonWidth_normLon hb1 hb2 (le_of_lt hu1) hu2]
      linarith


/-! ### Claim C7 -/

/-- C7: when merging two bare longitudes the longitude-merge operation always
chooses the circular direction spanning at most 180 degrees, never merely the
direction that is numerically west ≤ east; consequently a bundle with lines on
both sides of the antimeridian yields the wraparound box `[170, 10, -170, 25]`
rather than the non-wrapping `[-175, 10, 175, 25]`. -/
theorem c7_shortest_direction :
    (∀ a b : ℚ, -180 < a → a ≤ 180 → -180 < b → b ≤ 180 →
      lonWidth (mergeLonPoints a b) ≤ 180) ∧
    computeMbr { lines := [[⟨10, 170⟩, ⟨15, 175⟩], [⟨20, -170⟩, ⟨25, -175⟩]] } =
      some [170, 10, -170, 25] := by
  constructor
  · intro a b ha1 ha2 hb1 hb2
    exact mergeLonPoints_width_le ha1 ha2 hb1 hb2
  · decide

/-- Witness for C7: the bare longitudes 20 and -150 merge the short way across
no more than 180 degrees. -/
theorem c7_shortest_direction_witness :
    lonWidth (mergeLonPoints 20 (-150)) ≤ 180 :=
  c7_shortest_direction.1 20 (-150) (by norm_num) (by norm_num) (by norm_num) (by norm_num)

/-! ### Box-algebra identities for the union -/

theorem mergeLon_comm (i1 i2 : LonInterval) : mergeLon i1 i2 = mergeLon i2 i1 := by
  simp only [mergeLon]
  split_ifs with h1 h2 h3 h4 h5 h6 h7 h8 h9 h10 h11 h12 h13 h14
  all_goals try rfl
  all_goals try (exact absurd (And.intro (And.right (by assumption)) (And.left (by assumption))) (by assumption))
  all_goals try linarith
  rw [le_antisymm (not_lt.mp h9) (not_lt.mp h6), le_antisymm h11 h13]

theorem mergeLat_comm (i1 i2 : LatInterval) : mergeLat i1 i2 = mergeLat i2 i1 := by
  simp only [mergeLat, min_comm i1.south i2.south, max_comm i1.north i2.north]

theorem mergeLon_idem {i : LonInterval}
    (h : (-180 < i.west ∧ i.west ≤ 180 ∧ -180 < i.east ∧ i.east ≤ 180 ∧ lonWidth i < 360) ∨
      (i.west = -180 ∧ i.east = 180)) : mergeLon i i = i := by
  obtain ⟨w, e⟩ := i
  rcases h with ⟨h1, h2, h3, h4, h5⟩ | ⟨hw, he⟩
  · simp only [mergeLon, offsetLon_self, zero_add, max_self]
    rw [if_neg (fun hc => absurd hc.1 (not_le.mpr h5)), if_neg (lt_irrefl _),
      if_pos (le_refl w)]
    have hnl : normLon (w + lonWidth ⟨w, e⟩) = e := by
      rcases le_or_lt w e with hwe | hwe
      · rw [lonWidth_pair, if_pos hwe, show w + (e - w) = e by ring, normLon_id h3 h4]
      · rw [lonWidth_pair, if_neg (not_le.mpr hwe),
          show w + (e - w + 360) = e + 360 by ring,
          normLon_high (by linarith) (by linarith)]
        ring
    rw [hnl, if_neg (lt_irrefl _)]
  · subst hw
    subst he
    decide

theorem mergeLat_idem {i : LatInterval} (h1 : -90 ≤ i.south) (h2 : i.south ≤ i.north)
    (h3 : i.north ≤ 90) : mergeLat i i = i := by
  obtain ⟨s, n⟩ := i
  simp only [mergeLat, min_self, max_self]
  rw [max_eq_right h1, min_eq_right h3]

/-! ### Claim C9 -/

/-- C9 (amended): the box union is idempotent on every well-formed box and a
single union of two boxes is commutative; the reduction over three or more
geometries is however not permutation invariant in general (see the
counterexample), so the claim's associativity part fails as stated. -/
theorem c9_union_idem_comm :
    (∀ b : Box, ValidBox b → unionBox b b = b) ∧
    (∀ b1 b2 : Box, unionBox b1 b2 = unionBox b2 b1) := by
  constructor
  · intro b hb
    obtain ⟨hlon, hs, hsn, hn⟩ := hb
    obtain ⟨li, la⟩ := b
    simp only [unionBox]
    rw [mergeLon_idem hlon, mergeLat_idem hs hsn hn]
  · intro b1 b2
    simp only [unionBox]
    rw [mergeLon_comm, mergeLat_comm]

/-- Witness for C9 on a concrete well-formed box. -/
theorem c9_union_idem_comm_witness :
    unionBox ⟨⟨20, 45⟩, ⟨0, 10⟩⟩ ⟨⟨20, 45⟩, ⟨0, 10⟩⟩ = ⟨⟨20, 45⟩, ⟨0, 10⟩⟩ :=
  c9_union_idem_comm.1 ⟨⟨20, 45⟩, ⟨0, 10⟩⟩ (by unfold ValidBox; decide)

/-! ### Claim C8 -/

/-- C8: a `BoundingRectangle` input contributes exactly its supplied
`[west, south, east, north]` bounds: the epsilon widening applies only to bare
points, so `computeUmmMbr` on a bundle with a single rectangle returns the four
bounds unchanged, and a wraparound rectangle with west > east is returned
as-is, never re-normalized by swapping. -/
theorem c8_rectangle_passthrough :
    (∀ r : BoundingRectangleType,
      computeUmmMbr { BoundingRectangles := [r] } =
        some [r.WestBoundingCoordinate, r.SouthBoundingCoordinate,
              r.EastBoundingCoordinate, r.NorthBoundingCoordinate]) ∧
    computeUmmMbr { BoundingRectangles := [⟨175, -10, -175, 10⟩] } =
      some [175, -10, -175, 10] := by
  refine ⟨fun r => rfl, by decide⟩

/-! ### Claim C1 -/

/-- C1 (amended): the two entry points agree on semantically equivalent point
bundles and line bundles; for polygons, however, a token-string ring with the
closing point repeated walks one more geodesic edge than the `GPolygon`
boundary over the same vertices, so the two entry points can differ there (see
the counterexample): the `GPolygon` form misses the latitude bulge of the
final boundary edge. -/
theorem c1_points_lines_agree :
    (∀ ps : List PointType,
      computeMbr { points := ps.map pointTypeToLatLng } =
        computeUmmMbr { Points := ps }) ∧
    (∀ ls : List LineType,
      computeMbr { lines := ls.map (fun l => l.Points.map pointTypeToLatLng) } =
        computeUmmMbr { Lines := ls }) := by
  constructor
  · intro ps
    simp only [computeMbr, computeUmmMbr, mbrBoxes, ummBoxes, List.map_map,
      List.filterMap_nil, List.map_nil, List.flatten_nil, List.append_nil,
      List.nil_append]
    rfl
  · intro ls
    simp only [computeMbr, computeUmmMbr, mbrBoxes, ummBoxes, List.filterMap_map,
      List.filterMap_nil, List.map_nil, List.flatten_nil, List.append_nil,
      List.nil_append]
    rfl

/-- Witness for C1 at a concrete one-point bundle. -/
theorem c1_points_lines_agree_witness :
    computeMbr { points := ([⟨10, 35⟩] : List PointType).map pointTypeToLatLng } =
      computeUmmMbr { Points := [⟨10, 35⟩] } :=
  c1_points_lines_agree.1 [⟨10, 35⟩]

/-- Witness for C8 at a concrete rectangle. -/
theorem c8_rectangle_passthrough_witness :
    computeUmmMbr { BoundingRectangles := [⟨35, 0, 40, 10⟩] } =
      some [35, 0, 40, 10] :=
  c8_rectangle_passthrough.1 ⟨35, 0, 40, 10⟩

end Mbr
